import Mathlib

/-!
Verification of the radiative-transfer quantity calculator of PySpecTools
(pyspectools/astro/radiative.py), embedded shallowly over the real numbers.

Python float arithmetic is modelled by real arithmetic.  Two different
division semantics occur in the relevant code paths and are modelled
separately: pure-Python float division raises ZeroDivisionError when the
denominator is zero, while division of a float by a NumPy float64 scalar
(as in the final quotient of I2S, whose denominator is built from np.exp
outputs) raises nothing and yields a signed infinity or nan under the
default NumPy error state.  The source module imports the constant kbcm and
the converter MHz2cm from pyspectools.units, a module of this repository
that is not among the provided sources; those two are modelled from the
specification.
-/

namespace PySpecTools

noncomputable section

/-- Errors a computation can surface.  Python float division by zero raises
ZeroDivisionError.  The specification speaks of a DomainError for
mathematically undefined operations; that constructor is included so that
statements about it can be made, but no code path produces it. -/
inductive PyErr where
  | zeroDivisionError
  | domainError
deriving DecidableEq

/-- Python float division: raises ZeroDivisionError when the denominator is
zero, otherwise yields the quotient. -/
def pydiv (a b : ℝ) : Except PyErr ℝ :=
  if b = 0 then Except.error PyErr.zeroDivisionError else Except.ok (a / b)

/-- Modelled from the spec: pyspectools.units.MHz2cm, the standard
speed-of-light-based conversion from a frequency in MHz to wavenumbers,
frequency divided by c expressed in the matching units (c = 29979.2458
MHz cm).  The units module itself is not among the provided sources. -/
def MHz2cm (frequency : ℝ) : ℝ := frequency / 29979.2458

/-- Modelled from the spec: pyspectools.units.kbcm, the Boltzmann constant
expressed in wavenumber per Kelvin units.  The units module itself is not
among the provided sources. -/
def kbcm : ℝ := 0.6950348

/-- calc_E_upper from radiative.py: upper state energy from the transition
frequency (MHz) and the lower state energy (wavenumbers). -/
def calc_E_upper (frequency E_lower : ℝ) : ℝ :=
  MHz2cm frequency + E_lower

/-- boltzmann_factor from radiative.py: exp(-E / (kbcm * T)).  The division
-E / (kbcm * T) is a Python float division, raising when kbcm * T = 0. -/
def boltzmann_factor (E T : ℝ) : Except PyErr ℝ :=
  (pydiv (-E) (kbcm * T)).map Real.exp

/-- A NumPy float64 scalar result: a finite real, a signed infinity, or
nan.  Needed because NumPy scalar division by zero does not raise. -/
inductive NpFloat where
  | finite (x : ℝ)
  | inf
  | ninf
  | nan

/-- NumPy float64 scalar division: at a zero denominator nothing is
raised; under the default NumPy error state a RuntimeWarning is emitted
and the result is inf, -inf or nan by the sign of the numerator. -/
def npdiv (a b : ℝ) : NpFloat :=
  if b = 0 then
    if 0 < a then NpFloat.inf
    else if a < 0 then NpFloat.ninf
    else NpFloat.nan
  else NpFloat.finite (a / b)

/-- I2S from radiative.py: converts a log intensity to the intrinsic
linestrength.  E_upper is computed from the frequency and lower state
energy, A = 10^I * Q, the two Boltzmann factors are evaluated (the lower
one first, matching the order Python raises in), the denominator is
B = 4.16231e-5 * frequency * (lower_factor - upper_factor), and the
result is the division A / B.  The Boltzmann factors are np.exp outputs,
so B is a NumPy float64 scalar and the final division is NumPy scalar
division: at B = 0 it returns an infinity or nan instead of raising. -/
def I2S (I Q frequency E_lower T : ℝ) : Except PyErr NpFloat :=
  let E_upper := calc_E_upper frequency E_lower
  let A := (10 : ℝ) ^ I * Q
  match boltzmann_factor E_lower T, boltzmann_factor E_upper T with
  | Except.ok lower_factor, Except.ok upper_factor =>
      Except.ok (npdiv A (4.16231e-5 * frequency * (lower_factor - upper_factor)))
  | Except.error e, _ => Except.error e
  | _, Except.error e => Except.error e

/-- approx_Q_top from radiative.py: approximate (a)symmetric top partition
function (5.34e6 / sigma) * (T^3 / (A * B * C)) ** 0.5, where C defaults
to B when not supplied.  Both divisions are Python float divisions and the
half power is the real power function. -/
def approx_Q_top (A B T sigma : ℝ) (C : Option ℝ) : Except PyErr ℝ :=
  let c := C.getD B
  match pydiv 5.34e6 sigma with
  | Except.error e => Except.error e
  | Except.ok p =>
      match pydiv (T ^ 3) (A * B * c) with
      | Except.error e => Except.error e
      | Except.ok r => Except.ok (p * r ^ (0.5 : ℝ))

/-- einsteinA from radiative.py: prefactor * frequency^3 * S with the
PGopher prefactor 1.163965505e-20. -/
def einsteinA (S frequency : ℝ) : ℝ :=
  1.163965505e-20 * frequency ^ 3 * S

/-- One parsed row of a .str file, in the column order produced by
parse_str: Frequency, RTDM, Formatting, Upper QN, Lower QN,
Dipole Category.  The four passthrough columns are kept opaque. -/
structure StrRecord where
  frequency : ℝ
  rtdm : ℝ
  formatting : String
  upper_qn : String
  lower_qn : String
  dipole_category : String

/-- A row of the table returned by calc_einstein: the parsed record plus
the two derived columns TDM and Einstein A. -/
structure StrRow extends StrRecord where
  tdm : ℝ
  einstein_A : ℝ

/-- The per-row column assignments of calc_einstein:
TDM = RTDM^2 and Einstein A = einsteinA(TDM, Frequency). -/
def augment (r : StrRecord) : StrRow :=
  { r with
    tdm := r.rtdm ^ 2
    einstein_A := einsteinA (r.rtdm ^ 2) r.frequency }

/-- Boolean comparison used for the final ascending sort on Frequency. -/
def freq_le (a b : StrRow) : Bool := decide (a.frequency ≤ b.frequency)

/-- calc_einstein from radiative.py, over the already parsed rows: assign
the TDM column, assign the Einstein A column from it, then sort the table
by ascending Frequency.  The pandas sort_values call (default sort kind)
is modelled by a comparison sort on the Frequency column; only the
ordering and permutation guarantees documented for sort_values are relied
on by the theorems below, not the tie-breaking of the model. -/
def calc_einstein (rows : List StrRecord) : List StrRow :=
  (rows.map augment).mergeSort freq_le

/-! ## Helper lemmas -/

theorem kbcm_pos : (0 : ℝ) < kbcm := by norm_num [kbcm]

theorem pydiv_ok {b : ℝ} (hb : b ≠ 0) (a : ℝ) : pydiv a b = Except.ok (a / b) := by
  simp [pydiv, hb]

theorem npdiv_ok {b : ℝ} (hb : b ≠ 0) (a : ℝ) : npdiv a b = NpFloat.finite (a / b) := by
  simp [npdiv, hb]

theorem npdiv_zero_pos {a : ℝ} (ha : 0 < a) : npdiv a 0 = NpFloat.inf := by
  simp [npdiv, ha]

theorem boltzmann_factor_ok {T : ℝ} (hT : T ≠ 0) (E : ℝ) :
    boltzmann_factor E T = Except.ok (Real.exp (-E / (kbcm * T))) := by
  have h : kbcm * T ≠ 0 := mul_ne_zero (ne_of_gt kbcm_pos) hT
  simp [boltzmann_factor, pydiv_ok h, Except.map]

theorem I2S_eq {T : ℝ} (hT : T ≠ 0) (I Q frequency E_lower : ℝ) :
    I2S I Q frequency E_lower T =
      Except.ok (npdiv ((10 : ℝ) ^ I * Q)
        (4.16231e-5 * frequency *
          (Real.exp (-E_lower / (kbcm * T)) -
           Real.exp (-(MHz2cm frequency + E_lower) / (kbcm * T))))) := by
  simp only [I2S, boltzmann_factor_ok hT, calc_E_upper]

/-! ## Theorems for the claims -/

/-- C6 counterexample: at temperature T = 0, boltzmann_factor surfaces the
Python ZeroDivisionError of the float division, not the DomainError the
claim names. -/
theorem C6_no_domain_error_counterexample :
    boltzmann_factor 1 0 = Except.error PyErr.zeroDivisionError ∧
    boltzmann_factor 1 0 ≠ Except.error PyErr.domainError := by
  constructor
  · simp [boltzmann_factor, pydiv, Except.map]
  · simp [boltzmann_factor, pydiv, Except.map]

/-- C6 amended: for every energy E, calling boltzmann_factor with T = 0
fails with ZeroDivisionError (the unchecked float division by
kbcm * 0 = 0); the code contains no DomainError check. -/
theorem C6_boltzmann_zero_temperature (E : ℝ) :
    boltzmann_factor E 0 = Except.error PyErr.zeroDivisionError := by
  simp [boltzmann_factor, pydiv, Except.map]

/-- C5 counterexample: einsteinA is negative at a negative frequency even
for a nonnegative linestrength, refuting nonnegativity over all real
frequencies. -/
theorem C5_negative_frequency_counterexample :
    (0 : ℝ) ≤ 1 ∧ einsteinA 1 (-1) < 0 := by
  constructor <;> norm_num [einsteinA]

/-- C5 amended: einsteinA is nonnegative for nonnegative frequency and
nonnegative linestrength, and it scales cubically in the frequency for all
real inputs. -/
theorem C5_einsteinA_nonneg_scaling :
    (∀ S frequency : ℝ, 0 ≤ S → 0 ≤ frequency → 0 ≤ einsteinA S frequency) ∧
    (∀ S frequency c : ℝ, einsteinA S (c * frequency) = c ^ 3 * einsteinA S frequency) := by
  constructor
  · intro S frequency hS hf
    have : (0 : ℝ) ≤ 1.163965505e-20 := by norm_num
    exact mul_nonneg (mul_nonneg this (pow_nonneg hf 3)) hS
  · intro S frequency c
    simp only [einsteinA]
    ring

/-- C5 witness: the amended nonnegativity applied at S = 1, frequency = 1. -/
theorem C5_einsteinA_nonneg_scaling_witness :
    (0 : ℝ) ≤ 1 ∧ 0 ≤ einsteinA 1 1 :=
  ⟨by norm_num, C5_einsteinA_nonneg_scaling.1 1 1 (by norm_num) (by norm_num)⟩

/-- C4 counterexample: at frequency 0 the denominator B vanishes and I2S
raises nothing at all: the final division is NumPy scalar division, which
silently returns positive infinity (with a RuntimeWarning under the default
NumPy error state), so in particular no DomainError is raised and an
infinite value is returned. -/
theorem C4_no_domain_error_counterexample :
    I2S 1 1 0 0 300 = Except.ok NpFloat.inf ∧
    I2S 1 1 0 0 300 ≠ Except.error PyErr.domainError := by
  have h300 : (300 : ℝ) ≠ 0 := by norm_num
  have hA : (0 : ℝ) < (10 : ℝ) ^ (1 : ℝ) * 1 :=
    mul_pos (Real.rpow_pos_of_pos (by norm_num) 1) one_pos
  have h : I2S 1 1 0 0 300 = Except.ok NpFloat.inf := by
    rw [I2S_eq h300]
    rw [show (4.16231e-5 : ℝ) * 0 *
        (Real.exp (-0 / (kbcm * 300)) -
         Real.exp (-(MHz2cm 0 + 0) / (kbcm * 300))) = 0 by ring]
    rw [npdiv_zero_pos hA]
  refine ⟨h, ?_⟩
  rw [h]
  simp

/-- C4 amended: on every input where the computed denominator
B = 4.16231e-5 * frequency * (lower_factor - upper_factor) equals zero and
the numerator A = 10^I * Q is positive, I2S raises nothing and silently
returns positive infinity: B is a NumPy float64 scalar, so the division
A / B emits a RuntimeWarning and yields inf; the code contains no
DomainError check. -/
theorem C4_I2S_zero_denominator_silent_inf
    (I Q frequency E_lower T lower_factor upper_factor : ℝ)
    (hl : boltzmann_factor E_lower T = Except.ok lower_factor)
    (hu : boltzmann_factor (calc_E_upper frequency E_lower) T = Except.ok upper_factor)
    (hB : 4.16231e-5 * frequency * (lower_factor - upper_factor) = 0)
    (hA : 0 < (10 : ℝ) ^ I * Q) :
    I2S I Q frequency E_lower T = Except.ok NpFloat.inf := by
  simp only [I2S, hl, hu, hB, npdiv_zero_pos hA]

/-- C4 witness: the amended statement applied at frequency 0, where both
Boltzmann factors agree and the denominator is zero. -/
theorem C4_I2S_zero_denominator_silent_inf_witness :
    boltzmann_factor 0 300 = Except.ok (Real.exp (-0 / (kbcm * 300))) ∧
    boltzmann_factor (calc_E_upper 0 0) 300 = Except.ok (Real.exp (-0 / (kbcm * 300))) ∧
    4.16231e-5 * 0 * (Real.exp (-0 / (kbcm * 300)) - Real.exp (-0 / (kbcm * 300))) = 0 ∧
    0 < (10 : ℝ) ^ (1 : ℝ) * 1 ∧
    I2S 1 1 0 0 300 = Except.ok NpFloat.inf := by
  have h300 : (300 : ℝ) ≠ 0 := by norm_num
  have hE : calc_E_upper 0 0 = 0 := by norm_num [calc_E_upper, MHz2cm]
  have hl : boltzmann_factor 0 300 = Except.ok (Real.exp (-0 / (kbcm * 300))) :=
    boltzmann_factor_ok h300 0
  have hu : boltzmann_factor (calc_E_upper 0 0) 300 =
      Except.ok (Real.exp (-0 / (kbcm * 300))) := by
    rw [hE]; exact hl
  have hB : (4.16231e-5 : ℝ) * 0 *
      (Real.exp (-0 / (kbcm * 300)) - Real.exp (-0 / (kbcm * 300))) = 0 := by ring
  have hA : (0 : ℝ) < (10 : ℝ) ^ (1 : ℝ) * 1 :=
    mul_pos (Real.rpow_pos_of_pos (by norm_num) 1) one_pos
  exact ⟨hl, hu, hB, hA,
    C4_I2S_zero_denominator_silent_inf 1 1 0 0 300 _ _ hl hu hB hA⟩

/-- C3: I2S computes, in order, the upper state energy as the MHz to
wavenumber conversion of the frequency plus the lower state energy, the
numerator A = 10^I * Q, the lower and upper Boltzmann factors
exp(-E / (kbcm * T)), the denominator
B = 4.16231e-5 * frequency * (lower_factor - upper_factor), and returns
the division A / B (NumPy scalar division, since the factors are np.exp
outputs). -/
theorem C3_I2S_steps (I Q frequency E_lower T : ℝ) (hT : T ≠ 0) :
    calc_E_upper frequency E_lower = MHz2cm frequency + E_lower ∧
    boltzmann_factor E_lower T = Except.ok (Real.exp (-E_lower / (kbcm * T))) ∧
    boltzmann_factor (calc_E_upper frequency E_lower) T =
      Except.ok (Real.exp (-(MHz2cm frequency + E_lower) / (kbcm * T))) ∧
    I2S I Q frequency E_lower T =
      Except.ok (npdiv ((10 : ℝ) ^ I * Q)
        (4.16231e-5 * frequency *
          (Real.exp (-E_lower / (kbcm * T)) -
           Real.exp (-(MHz2cm frequency + E_lower) / (kbcm * T))))) := by
  refine ⟨rfl, boltzmann_factor_ok hT E_lower, ?_, I2S_eq hT I Q frequency E_lower⟩
  rw [calc_E_upper]
  exact boltzmann_factor_ok hT (MHz2cm frequency + E_lower)

/-- C3 witness: the step decomposition evaluated at I = 0, Q = 1,
frequency = 1, E_lower = 0, T = 300. -/
theorem C3_I2S_steps_witness :
    (300 : ℝ) ≠ 0 ∧
    (calc_E_upper 1 0 = MHz2cm 1 + 0 ∧
     boltzmann_factor 0 300 = Except.ok (Real.exp (-0 / (kbcm * 300))) ∧
     boltzmann_factor (calc_E_upper 1 0) 300 =
       Except.ok (Real.exp (-(MHz2cm 1 + 0) / (kbcm * 300))) ∧
     I2S 0 1 1 0 300 =
       Except.ok (npdiv ((10 : ℝ) ^ (0 : ℝ) * 1)
         (4.16231e-5 * 1 *
           (Real.exp (-0 / (kbcm * 300)) -
            Real.exp (-(MHz2cm 1 + 0) / (kbcm * 300)))))) :=
  ⟨by norm_num, C3_I2S_steps 0 1 1 0 300 (by norm_num)⟩

/-- C8: for fixed T > 0 the Boltzmann factor is strictly decreasing in the
energy, and for fixed E > 0 it is strictly increasing in the temperature
over T > 0. -/
theorem C8_boltzmann_monotone :
    (∀ E₁ E₂ T : ℝ, 0 < T → E₁ < E₂ →
      ∃ b₁ b₂ : ℝ, boltzmann_factor E₁ T = Except.ok b₁ ∧
        boltzmann_factor E₂ T = Except.ok b₂ ∧ b₂ < b₁) ∧
    (∀ E T₁ T₂ : ℝ, 0 < E → 0 < T₁ → T₁ < T₂ →
      ∃ b₁ b₂ : ℝ, boltzmann_factor E T₁ = Except.ok b₁ ∧
        boltzmann_factor E T₂ = Except.ok b₂ ∧ b₁ < b₂) := by
  constructor
  · intro E₁ E₂ T hT hE
    have hkT : 0 < kbcm * T := mul_pos kbcm_pos hT
    refine ⟨_, _, boltzmann_factor_ok (ne_of_gt hT) E₁,
      boltzmann_factor_ok (ne_of_gt hT) E₂, Real.exp_lt_exp.mpr ?_⟩
    rw [div_eq_mul_inv, div_eq_mul_inv]
    exact mul_lt_mul_of_pos_right (neg_lt_neg hE) (inv_pos.mpr hkT)
  · intro E T₁ T₂ hE hT₁ hTT
    have hkT₁ : 0 < kbcm * T₁ := mul_pos kbcm_pos hT₁
    have hkTT : kbcm * T₁ < kbcm * T₂ := mul_lt_mul_of_pos_left hTT kbcm_pos
    have hT₂ : 0 < T₂ := lt_trans hT₁ hTT
    refine ⟨_, _, boltzmann_factor_ok (ne_of_gt hT₁) E,
      boltzmann_factor_ok (ne_of_gt hT₂) E, Real.exp_lt_exp.mpr ?_⟩
    have h : E / (kbcm * T₂) < E / (kbcm * T₁) :=
      div_lt_div_of_pos_left hE hkT₁ hkTT
    rw [neg_div, neg_div]
    exact neg_lt_neg h

/-- C8 witness: strict decrease applied at E from 0 to 1 with T = 1, and
strict increase applied at E = 1 with T from 1 to 2. -/
theorem C8_boltzmann_monotone_witness :
    ((0 : ℝ) < 1 ∧ (0 : ℝ) < 1 ∧
      ∃ b₁ b₂ : ℝ, boltzmann_factor 0 1 = Except.ok b₁ ∧
        boltzmann_factor 1 1 = Except.ok b₂ ∧ b₂ < b₁) ∧
    ((0 : ℝ) < 1 ∧ (0 : ℝ) < 1 ∧ (1 : ℝ) < 2 ∧
      ∃ b₁ b₂ : ℝ, boltzmann_factor 1 1 = Except.ok b₁ ∧
        boltzmann_factor 1 2 = Except.ok b₂ ∧ b₁ < b₂) :=
  ⟨⟨by norm_num, by norm_num,
      C8_boltzmann_monotone.1 0 1 1 (by norm_num) (by norm_num)⟩,
   ⟨by norm_num, by norm_num, by norm_num,
      C8_boltzmann_monotone.2 1 1 2 (by norm_num) (by norm_num) (by norm_num)⟩⟩

/-- C9: under positive partition function, positive frequency and positive
temperature, and granting that the MHz to wavenumber conversion is positive
on positive inputs and that kbcm is positive, I2S succeeds and returns a
strictly positive linestrength. -/
theorem C9_I2S_positive (I Q frequency E_lower T : ℝ)
    (hQ : 0 < Q) (hf : 0 < frequency) (hT : 0 < T)
    (hconv : ∀ f : ℝ, 0 < f → 0 < MHz2cm f) (hk : 0 < kbcm) :
    ∃ s : ℝ, I2S I Q frequency E_lower T = Except.ok (NpFloat.finite s) ∧ 0 < s := by
  have hkT : 0 < kbcm * T := mul_pos hk hT
  have hEu : E_lower < MHz2cm frequency + E_lower :=
    lt_add_of_pos_left E_lower (hconv frequency hf)
  have hexp : Real.exp (-(MHz2cm frequency + E_lower) / (kbcm * T)) <
      Real.exp (-E_lower / (kbcm * T)) := by
    apply Real.exp_lt_exp.mpr
    rw [div_eq_mul_inv, div_eq_mul_inv]
    exact mul_lt_mul_of_pos_right (neg_lt_neg hEu) (inv_pos.mpr hkT)
  have hd : 0 < Real.exp (-E_lower / (kbcm * T)) -
      Real.exp (-(MHz2cm frequency + E_lower) / (kbcm * T)) := sub_pos.mpr hexp
  have hB : 0 < 4.16231e-5 * frequency *
      (Real.exp (-E_lower / (kbcm * T)) -
       Real.exp (-(MHz2cm frequency + E_lower) / (kbcm * T))) :=
    mul_pos (mul_pos (by norm_num) hf) hd
  have hA : 0 < (10 : ℝ) ^ I * Q :=
    mul_pos (Real.rpow_pos_of_pos (by norm_num) I) hQ
  rw [I2S_eq (ne_of_gt hT), npdiv_ok (ne_of_gt hB)]
  exact ⟨_, rfl, div_pos hA hB⟩

/-- C9 witness: positivity of the returned linestrength at I = 0, Q = 1,
frequency = 1, E_lower = 0, T = 300, with the two granted facts proved for
the modelled collaborators. -/
theorem C9_I2S_positive_witness :
    (0 : ℝ) < 1 ∧ (0 : ℝ) < 1 ∧ (0 : ℝ) < 300 ∧
    (∀ f : ℝ, 0 < f → 0 < MHz2cm f) ∧ (0 : ℝ) < kbcm ∧
    ∃ s : ℝ, I2S 0 1 1 0 300 = Except.ok (NpFloat.finite s) ∧ 0 < s := by
  have hconv : ∀ f : ℝ, 0 < f → 0 < MHz2cm f := by
    intro f hf
    rw [MHz2cm]
    exact div_pos hf (by norm_num)
  exact ⟨by norm_num, by norm_num, by norm_num, hconv, kbcm_pos,
    C9_I2S_positive 0 1 1 0 300 (by norm_num) (by norm_num) (by norm_num)
      hconv kbcm_pos⟩

theorem rpow_half_scale {c : ℝ} (hc : 0 < c) (x : ℝ) :
    (c ^ 3 * x) ^ (0.5 : ℝ) = c ^ (1.5 : ℝ) * x ^ (0.5 : ℝ) := by
  rcases le_or_lt 0 x with hx | hx
  · rw [Real.mul_rpow (by positivity) hx]
    congr 1
    rw [← Real.rpow_natCast c 3, ← Real.rpow_mul (le_of_lt hc)]
    norm_num
  · have h1 : c ^ 3 * x < 0 := mul_neg_of_pos_of_neg (by positivity) hx
    have h0 : Real.cos ((0.5 : ℝ) * Real.pi) = 0 := by
      rw [show (0.5 : ℝ) * Real.pi = Real.pi / 2 by ring]
      exact Real.cos_pi_div_two
    rw [Real.rpow_def_of_neg h1, Real.rpow_def_of_neg hx, h0]
    ring

theorem approx_Q_top_ok {sigma : ℝ} (hs : sigma ≠ 0) {A B : ℝ}
    (hD : A * B * B ≠ 0) (T : ℝ) :
    approx_Q_top A B T sigma none =
      Except.ok (5.34e6 / sigma * (T ^ 3 / (A * B * B)) ^ (0.5 : ℝ)) := by
  simp [approx_Q_top, pydiv_ok hs, pydiv_ok hD]

/-- C7 counterexample: at A = B = T = 1 and sigma = 1 scaled by c = 4, the
partition function estimate is 5.34e6 / 4 = 1335000, not the value
5.34e6 / sqrt 4 = 2670000 that scaling inversely with the square root of
sigma would give: sigma enters the formula to the first power. -/
theorem C7_sigma_sqrt_counterexample :
    approx_Q_top 1 1 1 4 none = Except.ok 1335000 ∧
    approx_Q_top 1 1 1 4 none ≠
      (approx_Q_top 1 1 1 1 none).map (fun q => q / Real.sqrt 4) := by
  have h4 : (4 : ℝ) ≠ 0 := by norm_num
  have hD : (1 : ℝ) * 1 * 1 ≠ 0 := by norm_num
  have hx : (((1 : ℝ) ^ 3 / (1 * 1 * 1)) : ℝ) ^ (0.5 : ℝ) = 1 := by
    norm_num [Real.one_rpow]
  have hs4 : Real.sqrt 4 = 2 := by
    rw [show (4 : ℝ) = 2 ^ 2 by norm_num]
    exact Real.sqrt_sq (by norm_num)
  have e4 := approx_Q_top_ok h4 hD 1
  have e1 := approx_Q_top_ok (show (1 : ℝ) ≠ 0 by norm_num) hD 1
  constructor
  · rw [e4, hx]
    simp only [Except.ok.injEq]
    norm_num
  · rw [e4, e1, hx]
    simp only [Except.map, Except.ok.injEq, ne_eq, hs4]
    norm_num

/-- C7 amended: wherever approx_Q_top is defined (sigma nonzero and a
nonzero rotational constant product, with C defaulting to B), it scales as
c ^ 1.5 when the temperature is scaled by c > 0, and inversely with sigma
itself, not with the square root of sigma: scaling sigma by c divides the
result by c. -/
theorem C7_approx_Q_top_scaling (A B T sigma c : ℝ)
    (hc : 0 < c) (hs : sigma ≠ 0) (hD : A * B * B ≠ 0) :
    ∃ q : ℝ,
      approx_Q_top A B T sigma none = Except.ok q ∧
      approx_Q_top A B (c * T) sigma none = Except.ok (c ^ (1.5 : ℝ) * q) ∧
      approx_Q_top A B T (c * sigma) none = Except.ok (q / c) := by
  have hcs : c * sigma ≠ 0 := mul_ne_zero (ne_of_gt hc) hs
  refine ⟨_, approx_Q_top_ok hs hD T, ?_, ?_⟩
  · rw [approx_Q_top_ok hs hD (c * T)]
    have h1 : (c * T) ^ 3 / (A * B * B) = c ^ 3 * (T ^ 3 / (A * B * B)) := by
      rw [mul_pow]; ring
    rw [h1, rpow_half_scale hc]
    simp only [Except.ok.injEq]
    ring
  · rw [approx_Q_top_ok hcs hD T]
    simp only [Except.ok.injEq]
    rw [div_mul_eq_div_div_swap, div_mul_eq_mul_div]

/-- C7 witness: both scalings applied at A = B = T = sigma = 1 with c = 4. -/
theorem C7_approx_Q_top_scaling_witness :
    (0 : ℝ) < 4 ∧ (1 : ℝ) ≠ 0 ∧ (1 : ℝ) * 1 * 1 ≠ 0 ∧
    ∃ q : ℝ,
      approx_Q_top 1 1 1 1 none = Except.ok q ∧
      approx_Q_top 1 1 (4 * 1) 1 none = Except.ok ((4 : ℝ) ^ (1.5 : ℝ) * q) ∧
      approx_Q_top 1 1 1 (4 * 1) none = Except.ok (q / 4) :=
  ⟨by norm_num, by norm_num, by norm_num,
    C7_approx_Q_top_scaling 1 1 1 1 4 (by norm_num) (by norm_num) (by norm_num)⟩

/-- C1: every row of the table built by calc_einstein carries
TDM = RTDM ^ 2 and Einstein A = 1.163965505e-20 * Frequency ^ 3 * TDM,
the squared reduced dipole moment fed directly into the Einstein A
prefactor formula, and on the one-row input with Frequency 1000 and
RTDM 2 the output row has TDM = 4 and Einstein A = 4.65586202e-11 within
a relative tolerance of 1e-6. -/
theorem C1_calc_einstein_direct_formula :
    (∀ (rows : List StrRecord) (row : StrRow), row ∈ calc_einstein rows →
      row.tdm = row.rtdm ^ 2 ∧
      row.einstein_A = 1.163965505e-20 * row.frequency ^ 3 * row.tdm) ∧
    (∃ row : StrRow,
      calc_einstein [⟨1000, 2, "", "", "", ""⟩] = [row] ∧
      row.tdm = 4 ∧
      |row.einstein_A - 4.65586202e-11| ≤ 1e-6 * 4.65586202e-11) := by
  constructor
  · intro rows row hmem
    have hmem2 : row ∈ rows.map augment :=
      ((List.mergeSort_perm (rows.map augment) freq_le).mem_iff).mp hmem
    obtain ⟨r, _, hrow⟩ := List.mem_map.mp hmem2
    subst hrow
    exact ⟨rfl, rfl⟩
  · refine ⟨augment ⟨1000, 2, "", "", "", ""⟩, ?_, ?_, ?_⟩
    · exact List.perm_singleton.mp (List.mergeSort_perm _ freq_le)
    · norm_num [augment]
    · norm_num [augment, einsteinA]

/-- C1 witness: the per-row formulas applied to the single row of the
one-row example table. -/
theorem C1_calc_einstein_direct_formula_witness :
    (augment ⟨1000, 2, "", "", "", ""⟩) ∈ calc_einstein [⟨1000, 2, "", "", "", ""⟩] ∧
    ((augment ⟨1000, 2, "", "", "", ""⟩).tdm = (augment ⟨1000, 2, "", "", "", ""⟩).rtdm ^ 2 ∧
     (augment ⟨1000, 2, "", "", "", ""⟩).einstein_A =
       1.163965505e-20 * (augment ⟨1000, 2, "", "", "", ""⟩).frequency ^ 3 *
         (augment ⟨1000, 2, "", "", "", ""⟩).tdm) := by
  have h : calc_einstein [⟨1000, 2, "", "", "", ""⟩] =
      [augment ⟨1000, 2, "", "", "", ""⟩] :=
    List.perm_singleton.mp (List.mergeSort_perm _ freq_le)
  have hmem : (augment ⟨1000, 2, "", "", "", ""⟩) ∈
      calc_einstein [⟨1000, 2, "", "", "", ""⟩] := by
    rw [h]
    exact List.mem_singleton.mpr rfl
  exact ⟨hmem, C1_calc_einstein_direct_formula.1 _ _ hmem⟩

/-- C10: calc_einstein returns exactly the parsed rows, each augmented in
place: the output is a permutation of the per-row augmentations (the sort
neither drops nor duplicates rows, so the length equals the input length),
and augmentation keeps the six parsed fields unchanged while adding only
the TDM and Einstein A columns. -/
theorem C10_calc_einstein_frame :
    ∀ rows : List StrRecord,
      (calc_einstein rows).Perm (rows.map augment) ∧
      (calc_einstein rows).length = rows.length ∧
      ∀ r : StrRecord,
        (augment r).toStrRecord = r ∧
        (augment r).frequency = r.frequency ∧
        (augment r).rtdm = r.rtdm ∧
        (augment r).formatting = r.formatting ∧
        (augment r).upper_qn = r.upper_qn ∧
        (augment r).lower_qn = r.lower_qn ∧
        (augment r).dipole_category = r.dipole_category ∧
        (augment r).tdm = r.rtdm ^ 2 ∧
        (augment r).einstein_A = einsteinA (r.rtdm ^ 2) r.frequency := by
  intro rows
  refine ⟨List.mergeSort_perm (rows.map augment) freq_le, ?_, ?_⟩
  · rw [show calc_einstein rows = (rows.map augment).mergeSort freq_le from rfl,
      (List.mergeSort_perm (rows.map augment) freq_le).length_eq, List.length_map]
  · intro r
    exact ⟨rfl, rfl, rfl, rfl, rfl, rfl, rfl, rfl, rfl⟩

end

end PySpecTools
